import Mathlib

/-!
# Verification of the chunk file transfer server

A shallow embedding of `server.js` (with constants from `config.js`): a
real-time chunked file relay between one sender and one receiver connection.

The embedding models the server's mutable state (the `transferSessions` map,
the `activeConnections` map, and the temporary chunk blob store on disk) as a
pure `ServerState`, and each socket event handler as a function
`ServerState → ServerState × List Emission`, where an emission is a pair of
target socket id and outbound event.  Nondeterministic I/O outcomes are made
explicit inputs: the success of `fs.writeFile` for a chunk is a boolean
oracle on the upload event, and the set of chunk paths whose `fs.unlink`
fails during cleanup is an explicit list.

Human-readable `message` strings carried alongside error codes and
acknowledgments in the source are elided; error `code` fields and all
protocol-relevant payload fields are kept.
-/

/-- The `config.TEMP_DIR` constant from `config.js` (default value, no
environment override). -/
def TEMP_DIR : String := "./temp"

/-- Session status strings used by `server.js` (`waiting`, `connected`,
`uploading`, `completed`). -/
inductive Status
  | waiting
  | connected
  | uploading
  | completed
deriving DecidableEq, Repr

/-- The position of a status along the documented progression
`waiting → connected → uploading → completed`. -/
def statusRank : Status → Nat
  | .waiting => 0
  | .connected => 1
  | .uploading => 2
  | .completed => 3

/-- The `session.fileInfo` record as built on the first chunk in the
`upload-chunk` handler:
`{ fileName, fileSize, fileType, totalChunks, uploadStartTime }`. -/
structure FileInfo where
  fileName : String
  fileSize : Nat
  fileType : String
  totalChunks : Nat
  uploadStartTime : Nat
deriving DecidableEq, Repr

/-- One entry of `session.chunks`, as pushed by the `upload-chunk` handler:
`{ index, path, size, timestamp }`. -/
structure ChunkMeta where
  index : Nat
  path : String
  size : Nat
  timestamp : Nat
deriving DecidableEq, Repr

/-- A transfer session object, as created by the `create-transfer` handler
(`completedAt` is absent until `upload-complete` sets it). -/
structure Session where
  transferId : String
  sender : String
  receiver : Option String
  chunks : List ChunkMeta
  fileInfo : Option FileInfo
  startTime : Nat
  status : Status
  completedAt : Option Nat
deriving DecidableEq, Repr

/-- An `activeConnections` record: `{ connectedAt, role, transferId }`,
with `role`/`transferId` absent until the connection creates or joins a
transfer. -/
structure ConnRecord where
  connectedAt : Nat
  role : Option String
  transferId : Option String
deriving DecidableEq, Repr

/-- The server's mutable state: the two in-memory registries, the temporary
chunk blob store (path ↦ bytes, modelling files written under
`config.TEMP_DIR`), and the list of transfer ids for which a deferred
cleanup has been scheduled by `setTimeout`. -/
structure ServerState where
  sessions : List (String × Session)
  connections : List (String × ConnRecord)
  store : List (String × List Nat)
  scheduledCleanups : List String
deriving DecidableEq, Repr

/-- Outbound events emitted by the handlers (payload `message` strings
elided). -/
inductive Event
  | transferCreated (transferId : String)
  | errorEv (code : String) (chunkIndex : Option Nat)
  | receiverConnected (transferId : String) (receiverId : String)
  | joinedTransfer (transferId : String)
  | receiveChunk (chunk : List Nat) (chunkIndex : Nat) (totalChunks : Nat)
      (fileName : String) (fileSize : Nat) (fileType : String)
  | chunkUploaded (chunkIndex : Nat)
  | transferComplete (transferId : String) (fileInfo : Option FileInfo)
  | statusResponse (found : Bool) (status : Option Status)
      (fileInfo : Option FileInfo) (chunksReceived : Nat) (totalChunks : Nat)
  | peerDisconnected (transferId : String) (role : Option String)
deriving DecidableEq, Repr

/-- An emission: target socket id together with the event sent to it. -/
abbrev Emission := String × Event

/-- Inbound events (the socket id of the calling connection is made an
explicit `caller` argument; wall-clock reads `Date.now()` are the explicit
`now` argument; I/O failure oracles are explicit). -/
inductive Input
  | connect (caller : String) (now : Nat)
  | createTransfer (caller : String) (transferId : String) (now : Nat)
  | joinTransfer (caller : String) (transferId : String)
  | uploadChunk (caller : String) (transferId : String) (chunk : List Nat)
      (chunkIndex : Nat) (totalChunks : Nat) (fileName : String)
      (fileSize : Nat) (fileType : String) (now : Nat) (saveFails : Bool)
  | uploadComplete (caller : String) (transferId : String) (now : Nat)
  | getStatus (caller : String) (transferId : String)
  | disconnect (caller : String)
  | cleanup (transferId : String) (failSet : List String)
deriving DecidableEq, Repr

/-! ## Association-list operations (the semantics of a JS `Map`) -/

/-- Lookup, as JS `Map.get`. -/
def alistGet {α : Type} (k : String) : List (String × α) → Option α
  | [] => none
  | (k', v) :: rest => if k' = k then some v else alistGet k rest

/-- Insertion, as JS `Map.set`: replaces the binding for `k` if present,
appends otherwise. -/
def alistSet {α : Type} (k : String) (v : α) : List (String × α) → List (String × α)
  | [] => [(k, v)]
  | (k', v') :: rest =>
      if k' = k then (k, v) :: rest else (k', v') :: alistSet k v rest

/-- Removal, as JS `Map.delete`. -/
def alistRemove {α : Type} (k : String) : List (String × α) → List (String × α)
  | [] => []
  | (k', v') :: rest =>
      if k' = k then alistRemove k rest else (k', v') :: alistRemove k rest

/-- In-place mutation of the record stored under `k`, when present
(`map.get(k).field = v` in the source, always reached with the record
present). -/
def alistUpdate {α : Type} (k : String) (f : α → α) : List (String × α) → List (String × α)
  | [] => []
  | (k', v') :: rest =>
      if k' = k then (k', f v') :: rest else (k', v') :: alistUpdate k f rest

/-! ## JS decimal stringification of a chunk index

`` `${chunkIndex}` `` in the source converts the (nonnegative integer) chunk
index to its decimal digit string.  `decDigitsCore` is a fuel-based decimal
writer; `jsNatToString n` runs it with sufficient fuel. -/

/-- The decimal digit character for `n < 10` (`'*'` is unreachable). -/
def decDigitChar (n : Nat) : Char :=
  match n with
  | 0 => '0'
  | 1 => '1'
  | 2 => '2'
  | 3 => '3'
  | 4 => '4'
  | 5 => '5'
  | 6 => '6'
  | 7 => '7'
  | 8 => '8'
  | 9 => '9'
  | _ => '*'

/-- Most-significant-first decimal digits of `n`, with explicit fuel. -/
def decDigitsCore : Nat → Nat → List Char
  | 0, _ => []
  | fuel + 1, n =>
      if n < 10 then [decDigitChar n]
      else decDigitsCore fuel (n / 10) ++ [decDigitChar (n % 10)]

/-- Decimal representation of a natural number, as JS string interpolation
produces for a nonnegative integer. -/
def jsNatToString (n : Nat) : String :=
  ⟨decDigitsCore (n + 1) n⟩

/-! ## The chunk storage key

`server.js` line 178:
`const chunkPath = path.join(config.TEMP_DIR, `...`)` with the template
``${transferId}_chunk_${chunkIndex}``.  Node's `path.join` concatenates its
arguments with `/` and then normalizes the result: empty and `.` segments
are dropped, and a `..` segment removes the preceding segment when one is
available.  The model below implements this posix relative-path behavior on
character lists. -/

/-- Split a character list into segments at `'/'`. -/
def splitSlash : List Char → List (List Char)
  | [] => [[]]
  | c :: rest =>
      if c = '/' then [] :: splitSlash rest
      else
        match splitSlash rest with
        | [] => [[c]]
        | s :: ss => (c :: s) :: ss

/-- Path normalization over segments (accumulator holds the kept segments in
reverse order): drop empty and `.` segments, let `..` pop the previous kept
segment when that segment exists and is not itself `..`. -/
def normSegs : List (List Char) → List (List Char) → List (List Char)
  | acc, [] => acc.reverse
  | acc, seg :: rest =>
      if seg = [] ∨ seg = ['.'] then normSegs acc rest
      else if seg = ['.', '.'] then
        match acc with
        | [] => normSegs [['.', '.']] rest
        | a :: as =>
            if a = ['.', '.'] then normSegs (seg :: a :: as) rest
            else normSegs as rest
      else normSegs (seg :: acc) rest

/-- Interleave `'/'` between segments. -/
def joinSegs : List (List Char) → List Char
  | [] => []
  | [s] => s
  | s :: rest => s ++ '/' :: joinSegs rest

/-- Node `path.join(a, b)` for two nonempty relative posix paths:
concatenate with `'/'`, then normalize. -/
def nodeJoin (a b : String) : String :=
  let segs := normSegs [] (splitSlash (a.data ++ '/' :: b.data))
  if segs = [] then "." else ⟨joinSegs segs⟩

/-- The storage key for a chunk:
`path.join(config.TEMP_DIR, `${transferId}_chunk_${chunkIndex}`)`. -/
def chunkKey (transferId : String) (chunkIndex : Nat) : String :=
  nodeJoin TEMP_DIR (transferId ++ "_chunk_" ++ jsNatToString chunkIndex)

/-! ## The event handlers -/

/-- The session object built by the `create-transfer` handler. -/
def freshSession (transferId sender : String) (now : Nat) : Session :=
  { transferId := transferId, sender := sender, receiver := none,
    chunks := [], fileInfo := none, startTime := now, status := .waiting,
    completedAt := none }

/-- Binding a connection record to a transfer:
`activeConnections.get(caller).role = role; ... .transferId = t`. -/
def connBind (caller role t : String) (conns : List (String × ConnRecord)) :
    List (String × ConnRecord) :=
  alistUpdate caller (fun c => { c with role := some role, transferId := some t }) conns

/-- The `io.on('connection', ...)` setup: registers the connection record. -/
def handleConnect (caller : String) (now : Nat) (s : ServerState) :
    ServerState × List Emission :=
  ({ s with connections :=
      alistSet caller { connectedAt := now, role := none, transferId := none } s.connections },
   [])

/-- The `create-transfer` handler: unconditionally installs a fresh session
under `transferId` (overwriting any existing one), binds the caller as
sender, and acknowledges with `transfer-created`. -/
def handleCreate (caller transferId : String) (now : Nat) (s : ServerState) :
    ServerState × List Emission :=
  ({ s with
      sessions := alistSet transferId (freshSession transferId caller now) s.sessions,
      connections := connBind caller "sender" transferId s.connections },
   [(caller, .transferCreated transferId)])

/-- The `join-transfer` handler. -/
def handleJoin (caller transferId : String) (s : ServerState) :
    ServerState × List Emission :=
  match alistGet transferId s.sessions with
  | none => (s, [(caller, .errorEv "SESSION_NOT_FOUND" none)])
  | some sess =>
      match sess.receiver with
      | some _ => (s, [(caller, .errorEv "RECEIVER_EXISTS" none)])
      | none =>
          ({ s with
              sessions := alistSet transferId
                { sess with receiver := some caller, status := .connected } s.sessions,
              connections := connBind caller "receiver" transferId s.connections },
           [(sess.sender, .receiverConnected transferId caller),
            (caller, .joinedTransfer transferId)])

/-- The `chunkIndex === 0` branch of the `upload-chunk` handler: store the
file info (overwriting any previous value) and set the status to
`uploading`.  In the source this mutation happens *before* the
`fs.writeFile` attempt. -/
def chunkZeroUpdate (sess : Session) (chunkIndex totalChunks : Nat)
    (fileName : String) (fileSize : Nat) (fileType : String) (now : Nat) : Session :=
  if chunkIndex = 0 then
    { sess with
        fileInfo := some { fileName := fileName, fileSize := fileSize,
                           fileType := fileType, totalChunks := totalChunks,
                           uploadStartTime := now },
        status := .uploading }
  else sess

/-- The metadata entry pushed onto `session.chunks` after a successful
write. -/
def chunkMetaOf (transferId : String) (chunk : List Nat) (chunkIndex now : Nat) : ChunkMeta :=
  { index := chunkIndex, path := chunkKey transferId chunkIndex,
    size := chunk.length, timestamp := now }

/-- The `upload-chunk` handler.  Note the source order: the existence and
sender checks come first; then, for `chunkIndex === 0`, `fileInfo` and
`status` are mutated *before* the `fs.writeFile` attempt; the metadata push,
the relay to a bound receiver, and the `chunk-uploaded` acknowledgment
happen only when the write succeeds. -/
def handleUploadChunk (caller transferId : String) (chunk : List Nat)
    (chunkIndex totalChunks : Nat) (fileName : String) (fileSize : Nat)
    (fileType : String) (now : Nat) (saveFails : Bool) (s : ServerState) :
    ServerState × List Emission :=
  match alistGet transferId s.sessions with
  | none => (s, [(caller, .errorEv "SESSION_NOT_FOUND" none)])
  | some sess =>
      if sess.sender = caller then
        let sess1 := chunkZeroUpdate sess chunkIndex totalChunks fileName fileSize fileType now
        let chunkPath := chunkKey transferId chunkIndex
        if saveFails then
          ({ s with sessions := alistSet transferId sess1 s.sessions },
           [(caller, .errorEv "CHUNK_SAVE_ERROR" (some chunkIndex))])
        else
          let sess2 :=
            { sess1 with chunks := sess1.chunks ++ [chunkMetaOf transferId chunk chunkIndex now] }
          let relay : List Emission :=
            match sess1.receiver with
            | some r => [(r, .receiveChunk chunk chunkIndex totalChunks fileName fileSize fileType)]
            | none => []
          ({ s with
              sessions := alistSet transferId sess2 s.sessions,
              store := alistSet chunkPath chunk s.store },
           relay ++ [(caller, .chunkUploaded chunkIndex)])
      else (s, [(caller, .errorEv "UNAUTHORIZED" none)])

/-- The `upload-complete` handler: no check on the caller beyond session
existence; marks the session completed, notifies a bound receiver and
schedules the deferred cleanup. -/
def handleUploadComplete (caller transferId : String) (now : Nat)
    (s : ServerState) : ServerState × List Emission :=
  match alistGet transferId s.sessions with
  | none => (s, [(caller, .errorEv "SESSION_NOT_FOUND" none)])
  | some sess =>
      ({ s with
          sessions := alistSet transferId
            { sess with status := .completed, completedAt := some now } s.sessions,
          scheduledCleanups := s.scheduledCleanups ++ [transferId] },
       match sess.receiver with
       | some r => [(r, .transferComplete transferId sess.fileInfo)]
       | none => [])

/-- The `get-status` handler (read-only). -/
def handleGetStatus (caller transferId : String) (s : ServerState) :
    ServerState × List Emission :=
  match alistGet transferId s.sessions with
  | none => (s, [(caller, .statusResponse false none none 0 0)])
  | some sess =>
      (s, [(caller, .statusResponse true (some sess.status) sess.fileInfo
              sess.chunks.length ((sess.fileInfo.map FileInfo.totalChunks).getD 0))])

/-- The `disconnect` handler: notifies the other bound party when the
disconnecting connection was bound to an existing session, then removes the
connection record.  The session itself is left untouched. -/
def handleDisconnect (caller : String) (s : ServerState) :
    ServerState × List Emission :=
  let ems : List Emission :=
    match alistGet caller s.connections with
    | none => []
    | some conn =>
        match conn.transferId with
        | none => []
        | some t =>
            match alistGet t s.sessions with
            | none => []
            | some sess =>
                match (if sess.sender = caller then sess.receiver else some sess.sender) with
                | some other => [(other, .peerDisconnected t conn.role)]
                | none => []
  ({ s with connections := alistRemove caller s.connections }, ems)

/-- The unlink loop of `cleanupTransfer`: attempt to delete each referenced
blob in order; a failed unlink (path in `failSet`) is swallowed and the loop
continues. -/
def deleteChunkBlobs (failSet : List String) :
    List ChunkMeta → List (String × List Nat) → List (String × List Nat)
  | [], store => store
  | c :: rest, store =>
      deleteChunkBlobs failSet rest
        (if c.path ∈ failSet then store else alistRemove c.path store)

/-- The `cleanupTransfer(transferId)` function: a no-op when the session is
absent;
otherwise best-effort deletion of every referenced chunk blob followed by
removal of the session from the registry. -/
def cleanupTransfer (transferId : String) (failSet : List String)
    (s : ServerState) : ServerState × List Emission :=
  match alistGet transferId s.sessions with
  | none => (s, [])
  | some sess =>
      ({ s with
          store := deleteChunkBlobs failSet sess.chunks s.store,
          sessions := alistRemove transferId s.sessions },
       [])

/-- Dispatch of one inbound event to its handler. -/
def step (s : ServerState) : Input → ServerState × List Emission
  | .connect caller now => handleConnect caller now s
  | .createTransfer caller t now => handleCreate caller t now s
  | .joinTransfer caller t => handleJoin caller t s
  | .uploadChunk caller t ch ci tc fn fs ft now sf =>
      handleUploadChunk caller t ch ci tc fn fs ft now sf s
  | .uploadComplete caller t now => handleUploadComplete caller t now s
  | .getStatus caller t => handleGetStatus caller t s
  | .disconnect caller => handleDisconnect caller s
  | .cleanup t failSet => cleanupTransfer t failSet s

/-- The server state reached from `s` after a sequence of inbound events. -/
def run (s : ServerState) : List Input → ServerState
  | [] => s
  | i :: rest => run (step s i).1 rest

/-- The state at process start: empty registries, empty store. -/
def initialState : ServerState :=
  { sessions := [], connections := [], store := [], scheduledCleanups := [] }

/-- The status of the session registered under `t`, if any. -/
def sessionStatusAt (s : ServerState) (t : String) : Option Status :=
  (alistGet t s.sessions).map Session.status

/-- The `fileInfo` of the session registered under `t`, if any. -/
def sessionFileInfoAt (s : ServerState) (t : String) : Option FileInfo :=
  (alistGet t s.sessions).bind Session.fileInfo

/-! ## Auxiliary notions used by the statements -/

/-- The ten decimal digit characters. -/
def digitChars : List Char := ['0', '1', '2', '3', '4', '5', '6', '7', '8', '9']

/-- Numeric value of a digit character. -/
def digitVal (c : Char) : Nat := c.toNat - 48

/-- Numeric value of a most-significant-first digit string. -/
def valDigits (l : List Char) : Nat :=
  l.foldl (fun a c => 10 * a + digitVal c) 0

/-- Whether an outbound event is a chunk relay (`receive-chunk`). -/
def isRelay : Event → Bool
  | .receiveChunk _ _ _ _ _ _ => true
  | _ => false

/-- The emission `e` is a chunk relay produced by the very upload event `i`
being handled, and carries exactly the payload of `i` (so a stored chunk is
never relayed by a different — in particular, later — handling step). -/
def relayCarriesOwnPayload (i : Input) (e : Emission) : Prop :=
  match i, e with
  | .uploadChunk _ _ ch ci tc fn fs ft _ sf, (_, .receiveChunk ch' ci' tc' fn' fs' ft') =>
      sf = false ∧ ch' = ch ∧ ci' = ci ∧ tc' = tc ∧ fn' = fn ∧ fs' = fs ∧ ft' = ft
  | _, _ => False

/-! ## The claims under test, stated as written

Each `claim…` proposition below transcribes one spec claim verbatim over
the embedding; the ones the code falsifies are refuted at a concrete input
further down. -/

/-- C2 as written: when persistence fails for an upload by the bound sender
on an existing session, a `CHUNK_SAVE_ERROR` goes to the sender only and
the session is unchanged — same session object as before the event — for
every chunk index, including 0. -/
def claimSaveErrorSessionUnchanged : Prop :=
  ∀ (s : ServerState) (caller t : String) (ch : List Nat) (ci tc : Nat)
    (fn : String) (fsz : Nat) (ft : String) (now : Nat) (sess : Session),
    alistGet t s.sessions = some sess → sess.sender = caller →
    (handleUploadChunk caller t ch ci tc fn fsz ft now true s).2
        = [(caller, .errorEv "CHUNK_SAVE_ERROR" (some ci))]
    ∧ alistGet t (handleUploadChunk caller t ch ci tc fn fsz ft now true s).1.sessions
        = some sess

/-- C3 as written: along any run from the initial state, a session's status
only moves forward along `waiting → connected → uploading → completed`. -/
def claimStatusMonotone : Prop :=
  ∀ (pre : List Input) (i : Input) (t : String) (st1 st2 : Status),
    sessionStatusAt (run initialState pre) t = some st1 →
    sessionStatusAt (run initialState (pre ++ [i])) t = some st2 →
    statusRank st1 ≤ statusRank st2

/-- C4 as written: along any run from the initial state, once a session's
`fileInfo` is set, no later operation changes any of its fields. -/
def claimFileInfoImmutable : Prop :=
  ∀ (pre : List Input) (i : Input) (t : String) (fi fi' : FileInfo),
    sessionFileInfoAt (run initialState pre) t = some fi →
    sessionFileInfoAt (run initialState (pre ++ [i])) t = some fi' →
    fi' = fi

/-- C5 as written: along any run from the initial state, a session's chunk
metadata list contains at most one entry per index. -/
def claimChunksAtMostOnePerIndex : Prop :=
  ∀ (pre : List Input) (t : String) (sess : Session),
    alistGet t (run initialState pre).sessions = some sess →
    (sess.chunks.map ChunkMeta.index).Nodup

/-- C6 as written: the chunk storage key construction is injective over
pairs of an arbitrary caller-supplied `transferId` string and a chunk
index. -/
def claimChunkKeyInjective : Prop :=
  ∀ (t1 t2 : String) (i1 i2 : Nat),
    chunkKey t1 i1 = chunkKey t2 i2 → t1 = t2 ∧ i1 = i2

/-! ## Association-list lemmas -/

theorem alistGet_set_self {α : Type} (k : String) (v : α) (l : List (String × α)) :
    alistGet k (alistSet k v l) = some v := by
  induction l with
  | nil => simp [alistGet, alistSet]
  | cons p rest ih =>
      obtain ⟨k', v'⟩ := p
      by_cases h : k' = k
      · simp [alistSet, h, alistGet]
      · simp [alistSet, h, alistGet, ih]

theorem alistGet_set_ne {α : Type} (k k' : String) (v : α) (l : List (String × α))
    (h : k' ≠ k) : alistGet k (alistSet k' v l) = alistGet k l := by
  induction l with
  | nil => simp [alistGet, alistSet, h]
  | cons p rest ih =>
      obtain ⟨k'', v''⟩ := p
      by_cases h2 : k'' = k'
      · subst h2
        simp [alistSet, alistGet, h, ih]
      · simp [alistSet, h2, alistGet, ih]

theorem alistGet_remove_self {α : Type} (k : String) (l : List (String × α)) :
    alistGet k (alistRemove k l) = none := by
  induction l with
  | nil => simp [alistGet, alistRemove]
  | cons p rest ih =>
      obtain ⟨k', v'⟩ := p
      by_cases h : k' = k
      · simp [alistRemove, h, ih]
      · simp [alistRemove, h, alistGet, ih]

theorem alistGet_remove_ne {α : Type} (k k' : String) (l : List (String × α))
    (h : k' ≠ k) : alistGet k (alistRemove k' l) = alistGet k l := by
  induction l with
  | nil => simp [alistGet, alistRemove]
  | cons p rest ih =>
      obtain ⟨k'', v''⟩ := p
      by_cases h2 : k'' = k'
      · subst h2
        simp [alistRemove, alistGet, h, ih]
      · simp [alistRemove, h2, alistGet, ih]

theorem alistSet_eq_self_of_get {α : Type} {k : String} {v : α} {l : List (String × α)}
    (h : alistGet k l = some v) : alistSet k v l = l := by
  induction l with
  | nil => simp [alistGet] at h
  | cons p rest ih =>
      obtain ⟨k', v'⟩ := p
      by_cases h2 : k' = k
      · simp [alistGet, h2] at h
        simp [alistSet, h2, h]
      · simp [alistGet, h2] at h
        simp [alistSet, h2, ih h]

/-! ## Small facts about the session transformers -/

theorem chunkZeroUpdate_receiver (sess : Session) (ci tc : Nat) (fn : String)
    (fsz : Nat) (ft : String) (now : Nat) :
    (chunkZeroUpdate sess ci tc fn fsz ft now).receiver = sess.receiver := by
  unfold chunkZeroUpdate
  split <;> rfl

theorem chunkZeroUpdate_chunks (sess : Session) (ci tc : Nat) (fn : String)
    (fsz : Nat) (ft : String) (now : Nat) :
    (chunkZeroUpdate sess ci tc fn fsz ft now).chunks = sess.chunks := by
  unfold chunkZeroUpdate
  split <;> rfl

theorem chunkZeroUpdate_sender (sess : Session) (ci tc : Nat) (fn : String)
    (fsz : Nat) (ft : String) (now : Nat) :
    (chunkZeroUpdate sess ci tc fn fsz ft now).sender = sess.sender := by
  unfold chunkZeroUpdate
  split <;> rfl

/-- C8: an `upload-chunk` event on an existing session from a connection
that is not the bound sender yields exactly one `UNAUTHORIZED` error to the
caller, and the whole server state — sessions (hence chunk metadata,
status, fileInfo), connections, blob store — is left untouched. -/
theorem uploadChunk_unauthorized (s : ServerState) (caller t : String)
    (ch : List Nat) (ci tc : Nat) (fn : String) (fsz : Nat) (ft : String)
    (now : Nat) (sf : Bool) (sess : Session)
    (hget : alistGet t s.sessions = some sess)
    (hs : sess.sender ≠ caller) :
    handleUploadChunk caller t ch ci tc fn fsz ft now sf s
      = (s, [(caller, .errorEv "UNAUTHORIZED" none)]) := by
  simp [handleUploadChunk, hget, hs]

theorem uploadChunk_unauthorized_witness :
    handleUploadChunk "B" "t" [1] 0 1 "a" 1 "x" 0 false
      { sessions := [("t", freshSession "t" "A" 0)], connections := [],
        store := [], scheduledCleanups := [] }
      = ({ sessions := [("t", freshSession "t" "A" 0)], connections := [],
           store := [], scheduledCleanups := [] },
         [("B", .errorEv "UNAUTHORIZED" none)]) :=
  uploadChunk_unauthorized _ "B" "t" [1] 0 1 "a" 1 "x" 0 false
    (freshSession "t" "A" 0) (by decide) (by decide)

/-- C10: `upload-complete` on an existing session performs no authorization
check — the caller may be the bound sender, the receiver, or any unrelated
connection (no hypothesis below relates `caller` to the session, in
contrast to `uploadChunk_unauthorized`): it always sets the status to
`completed`, records `completedAt`, emits `transfer-complete` to the
receiver exactly when one is bound, and schedules a cleanup for the
transfer id. -/
theorem uploadComplete_no_auth_check (s : ServerState) (caller t : String)
    (now : Nat) (sess : Session)
    (hget : alistGet t s.sessions = some sess) :
    sessionStatusAt (handleUploadComplete caller t now s).1 t = some .completed
    ∧ (alistGet t (handleUploadComplete caller t now s).1.sessions).bind
        Session.completedAt = some now
    ∧ (handleUploadComplete caller t now s).2
        = (match sess.receiver with
           | some r => [(r, .transferComplete t sess.fileInfo)]
           | none => [])
    ∧ (handleUploadComplete caller t now s).1.scheduledCleanups
        = s.scheduledCleanups ++ [t] := by
  refine ⟨?_, ?_, ?_, ?_⟩ <;>
    simp [handleUploadComplete, hget, sessionStatusAt, alistGet_set_self]

theorem uploadComplete_no_auth_check_witness :
    sessionStatusAt
        (handleUploadComplete "C" "t" 9
          { sessions := [("t", { freshSession "t" "A" 0 with receiver := some "B" })],
            connections := [], store := [], scheduledCleanups := [] }).1 "t"
      = some .completed
    ∧ (alistGet "t"
        (handleUploadComplete "C" "t" 9
          { sessions := [("t", { freshSession "t" "A" 0 with receiver := some "B" })],
            connections := [], store := [], scheduledCleanups := [] }).1.sessions).bind
        Session.completedAt = some 9
    ∧ (handleUploadComplete "C" "t" 9
          { sessions := [("t", { freshSession "t" "A" 0 with receiver := some "B" })],
            connections := [], store := [], scheduledCleanups := [] }).2
        = [("B", .transferComplete "t" none)]
    ∧ (handleUploadComplete "C" "t" 9
          { sessions := [("t", { freshSession "t" "A" 0 with receiver := some "B" })],
            connections := [], store := [], scheduledCleanups := [] }).1.scheduledCleanups
        = [] ++ ["t"] := by
  have h := uploadComplete_no_auth_check
    { sessions := [("t", { freshSession "t" "A" 0 with receiver := some "B" })],
      connections := [], store := [], scheduledCleanups := [] }
    "C" "t" 9 { freshSession "t" "A" 0 with receiver := some "B" } (by decide)
  exact ⟨h.1, h.2.1, h.2.2.1, h.2.2.2⟩

/-- Master case analysis: how one dispatched event can change the session
registered under `t`.  Either the session object is untouched, or the event
is one of the five mutating protocol cases: a re-create for the same id, a
successful join, a failed upload by the bound sender, a successful upload
by the bound sender, or a completion. -/
theorem step_session_change (s : ServerState) (i : Input) (t : String)
    (sess sess' : Session)
    (hb : alistGet t s.sessions = some sess)
    (ha : alistGet t (step s i).1.sessions = some sess') :
    sess' = sess
    ∨ (∃ c now, i = .createTransfer c t now ∧ sess' = freshSession t c now)
    ∨ (∃ c, i = .joinTransfer c t ∧ sess.receiver = none
          ∧ sess' = { sess with receiver := some c, status := .connected })
    ∨ (∃ ch ci tc fn fsz ft now,
          i = .uploadChunk sess.sender t ch ci tc fn fsz ft now true
          ∧ sess' = chunkZeroUpdate sess ci tc fn fsz ft now)
    ∨ (∃ ch ci tc fn fsz ft now,
          i = .uploadChunk sess.sender t ch ci tc fn fsz ft now false
          ∧ sess' = { chunkZeroUpdate sess ci tc fn fsz ft now with
                      chunks := sess.chunks ++ [chunkMetaOf t ch ci now] })
    ∨ (∃ c now, i = .uploadComplete c t now
          ∧ sess' = { sess with status := .completed, completedAt := some now }) := by
  cases i with
  | connect c now =>
      simp only [step, handleConnect] at ha
      rw [hb] at ha
      exact Or.inl (Option.some.inj ha).symm
  | createTransfer c t' now =>
      simp only [step, handleCreate] at ha
      by_cases ht : t' = t
      · subst ht
        rw [alistGet_set_self] at ha
        exact Or.inr (Or.inl ⟨c, now, rfl, (Option.some.inj ha).symm⟩)
      · rw [alistGet_set_ne t t' _ _ ht, hb] at ha
        exact Or.inl (Option.some.inj ha).symm
  | joinTransfer c t' =>
      simp only [step, handleJoin] at ha
      rcases hg : alistGet t' s.sessions with _ | sess0 <;> rw [hg] at ha <;>
        simp only at ha
      · rw [hb] at ha
        exact Or.inl (Option.some.inj ha).symm
      · rcases hr : sess0.receiver with _ | r <;> rw [hr] at ha <;> simp only at ha
        · by_cases ht : t' = t
          · subst ht
            rw [hb] at hg
            cases Option.some.inj hg
            rw [alistGet_set_self] at ha
            exact Or.inr (Or.inr (Or.inl ⟨c, rfl, hr, (Option.some.inj ha).symm⟩))
          · rw [alistGet_set_ne t t' _ _ ht, hb] at ha
            exact Or.inl (Option.some.inj ha).symm
        · rw [hb] at ha
          exact Or.inl (Option.some.inj ha).symm
  | uploadChunk c t' ch ci tc fn fsz ft now sf =>
      simp only [step, handleUploadChunk] at ha
      rcases hg : alistGet t' s.sessions with _ | sess0 <;> rw [hg] at ha <;>
        simp only at ha
      · rw [hb] at ha
        exact Or.inl (Option.some.inj ha).symm
      · by_cases hsend : sess0.sender = c
        · rw [if_pos hsend] at ha
          cases sf with
          | true =>
              rw [if_pos rfl] at ha
              simp only at ha
              by_cases ht : t' = t
              · subst ht
                rw [hb] at hg
                cases Option.some.inj hg
                rw [alistGet_set_self] at ha
                refine Or.inr (Or.inr (Or.inr (Or.inl
                  ⟨ch, ci, tc, fn, fsz, ft, now, ?_, (Option.some.inj ha).symm⟩)))
                rw [hsend]
              · rw [alistGet_set_ne t t' _ _ ht, hb] at ha
                exact Or.inl (Option.some.inj ha).symm
          | false =>
              rw [if_neg (by decide)] at ha
              simp only at ha
              by_cases ht : t' = t
              · subst ht
                rw [hb] at hg
                cases Option.some.inj hg
                rw [alistGet_set_self] at ha
                refine Or.inr (Or.inr (Or.inr (Or.inr (Or.inl
                  ⟨ch, ci, tc, fn, fsz, ft, now, ?_, ?_⟩))))
                · rw [hsend]
                · rw [← (Option.some.inj ha), chunkZeroUpdate_chunks]
              · rw [alistGet_set_ne t t' _ _ ht, hb] at ha
                exact Or.inl (Option.some.inj ha).symm
        · rw [if_neg hsend] at ha
          simp only at ha
          rw [hb] at ha
          exact Or.inl (Option.some.inj ha).symm
  | uploadComplete c t' now =>
      simp only [step, handleUploadComplete] at ha
      rcases hg : alistGet t' s.sessions with _ | sess0 <;> rw [hg] at ha <;>
        simp only at ha
      · rw [hb] at ha
        exact Or.inl (Option.some.inj ha).symm
      · by_cases ht : t' = t
        · subst ht
          rw [hb] at hg
          cases Option.some.inj hg
          rw [alistGet_set_self] at ha
          exact Or.inr (Or.inr (Or.inr (Or.inr (Or.inr
            ⟨c, now, rfl, (Option.some.inj ha).symm⟩))))
        · rw [alistGet_set_ne t t' _ _ ht, hb] at ha
          exact Or.inl (Option.some.inj ha).symm
  | getStatus c t' =>
      simp only [step, handleGetStatus] at ha
      rcases hg : alistGet t' s.sessions with _ | sess0 <;> rw [hg] at ha <;>
        simp only at ha <;>
        · rw [hb] at ha
          exact Or.inl (Option.some.inj ha).symm
  | disconnect c =>
      simp only [step, handleDisconnect] at ha
      rw [hb] at ha
      exact Or.inl (Option.some.inj ha).symm
  | cleanup t' failSet =>
      simp only [step, cleanupTransfer] at ha
      rcases hg : alistGet t' s.sessions with _ | sess0 <;> rw [hg] at ha <;>
        simp only at ha
      · rw [hb] at ha
        exact Or.inl (Option.some.inj ha).symm
      · by_cases ht : t' = t
        · subst ht
          rw [alistGet_remove_self] at ha
          cases ha
        · rw [alistGet_remove_ne t t' _ ht, hb] at ha
          exact Or.inl (Option.some.inj ha).symm

theorem chunkZeroUpdate_status_zero (sess : Session) (tc : Nat) (fn : String)
    (fsz : Nat) (ft : String) (now : Nat) :
    (chunkZeroUpdate sess 0 tc fn fsz ft now).status = .uploading := by
  simp [chunkZeroUpdate]

theorem chunkZeroUpdate_status_ne (sess : Session) (ci tc : Nat) (fn : String)
    (fsz : Nat) (ft : String) (now : Nat) (h : ci ≠ 0) :
    (chunkZeroUpdate sess ci tc fn fsz ft now).status = sess.status := by
  simp [chunkZeroUpdate, h]

theorem chunkZeroUpdate_fileInfo_zero (sess : Session) (tc : Nat) (fn : String)
    (fsz : Nat) (ft : String) (now : Nat) :
    (chunkZeroUpdate sess 0 tc fn fsz ft now).fileInfo
      = some { fileName := fn, fileSize := fsz, fileType := ft,
               totalChunks := tc, uploadStartTime := now } := by
  simp [chunkZeroUpdate]

theorem chunkZeroUpdate_fileInfo_ne (sess : Session) (ci tc : Nat) (fn : String)
    (fsz : Nat) (ft : String) (now : Nat) (h : ci ≠ 0) :
    (chunkZeroUpdate sess ci tc fn fsz ft now).fileInfo = sess.fileInfo := by
  simp [chunkZeroUpdate, h]

theorem statusRank_le_completed (st : Status) :
    statusRank st ≤ statusRank .completed := by
  cases st <;> decide

/-- C3 is false on the code: a join that arrives after the first chunk
moves the status backwards from `uploading` to `connected`.  Concretely:
create, upload chunk 0 (status becomes `uploading`, no receiver yet), then
a receiver joins (status reset to `connected`). -/
theorem claimStatusMonotone_cex : ¬ claimStatusMonotone := by
  intro h
  have h2 := h
    [.connect "A" 0, .createTransfer "A" "t" 1,
     .uploadChunk "A" "t" [1, 2] 0 2 "a.txt" 20 "text/plain" 2 false]
    (.joinTransfer "B" "t") "t" .uploading .connected (by decide) (by decide)
  exact absurd h2 (by decide)

/-- C3 amended: a session's status moves forward along
`waiting → connected → uploading → completed`, except for three regressions
the code allows: a successful join (possible only while no receiver is
bound) forces `connected` from any status; a chunk-0 upload by the bound
sender forces `uploading` from any status; and a re-create replaces the
session by a fresh `waiting` one. -/
theorem status_forward_except_rebind (s : ServerState) (i : Input) (t : String)
    (sess sess' : Session)
    (hb : alistGet t s.sessions = some sess)
    (ha : alistGet t (step s i).1.sessions = some sess') :
    statusRank sess.status ≤ statusRank sess'.status
    ∨ (∃ c, i = .joinTransfer c t ∧ sess.receiver = none ∧ sess'.status = .connected)
    ∨ (∃ ch tc fn fsz ft now sf,
          i = .uploadChunk sess.sender t ch 0 tc fn fsz ft now sf
          ∧ sess'.status = .uploading)
    ∨ (∃ c now, i = .createTransfer c t now ∧ sess'.status = .waiting) := by
  rcases step_session_change s i t sess sess' hb ha with
    h | ⟨c, now, hi, h⟩ | ⟨c, hi, hr, h⟩ |
    ⟨ch, ci, tc, fn, fsz, ft, now, hi, h⟩ |
    ⟨ch, ci, tc, fn, fsz, ft, now, hi, h⟩ | ⟨c, now, hi, h⟩
  · subst h
    exact Or.inl le_rfl
  · refine Or.inr (Or.inr (Or.inr ⟨c, now, hi, ?_⟩))
    rw [h]
    rfl
  · refine Or.inr (Or.inl ⟨c, hi, hr, ?_⟩)
    rw [h]
  · by_cases hci : ci = 0
    · subst hci
      refine Or.inr (Or.inr (Or.inl ⟨ch, tc, fn, fsz, ft, now, true, hi, ?_⟩))
      rw [h, chunkZeroUpdate_status_zero]
    · left
      rw [h, chunkZeroUpdate_status_ne _ _ _ _ _ _ _ hci]
  · by_cases hci : ci = 0
    · subst hci
      refine Or.inr (Or.inr (Or.inl ⟨ch, tc, fn, fsz, ft, now, false, hi, ?_⟩))
      rw [h]
      show (chunkZeroUpdate sess 0 tc fn fsz ft now).status = .uploading
      rw [chunkZeroUpdate_status_zero]
    · left
      rw [h]
      show statusRank sess.status
        ≤ statusRank (chunkZeroUpdate sess ci tc fn fsz ft now).status
      rw [chunkZeroUpdate_status_ne _ _ _ _ _ _ _ hci]
  · left
    rw [h]
    exact statusRank_le_completed sess.status

theorem status_forward_except_rebind_witness :
    statusRank (freshSession "t" "A" 0).status
        ≤ statusRank (freshSession "t" "A" 0).status
    ∨ (∃ c, (Input.getStatus "B" "t") = .joinTransfer c "t"
          ∧ (freshSession "t" "A" 0).receiver = none
          ∧ (freshSession "t" "A" 0).status = .connected)
    ∨ (∃ ch tc fn fsz ft now sf,
          (Input.getStatus "B" "t")
            = .uploadChunk (freshSession "t" "A" 0).sender "t" ch 0 tc fn fsz ft now sf
          ∧ (freshSession "t" "A" 0).status = .uploading)
    ∨ (∃ c now, (Input.getStatus "B" "t") = .createTransfer c "t" now
          ∧ (freshSession "t" "A" 0).status = .waiting) :=
  status_forward_except_rebind
    { sessions := [("t", freshSession "t" "A" 0)], connections := [],
      store := [], scheduledCleanups := [] }
    (.getStatus "B" "t") "t" (freshSession "t" "A" 0) (freshSession "t" "A" 0)
    (by decide) (by decide)

/-- C4 is false on the code: a second chunk-0 upload (for example a retry)
overwrites `fileInfo` wholesale — here with a different name, size, type
and `uploadStartTime`. -/
theorem claimFileInfoImmutable_cex : ¬ claimFileInfoImmutable := by
  intro h
  have h2 := h
    [.connect "A" 0, .createTransfer "A" "t" 1,
     .uploadChunk "A" "t" [1, 2] 0 2 "a.txt" 20 "text/plain" 2 false]
    (.uploadChunk "A" "t" [9] 0 2 "b.txt" 9 "x" 7 false) "t"
    { fileName := "a.txt", fileSize := 20, fileType := "text/plain",
      totalChunks := 2, uploadStartTime := 2 }
    { fileName := "b.txt", fileSize := 9, fileType := "x",
      totalChunks := 2, uploadStartTime := 7 }
    (by decide) (by decide)
  exact absurd h2 (by decide)

/-- C4 amended: once set, a session's `fileInfo` is changed only by a
further chunk-0 upload from the bound sender — which overwrites every field
from that event's payload (including `uploadStartTime`), whether or not the
write then succeeds — or by a re-create, which clears it.  Every other
operation leaves it intact. -/
theorem fileInfo_overwritten_only_by_chunk_zero (s : ServerState) (i : Input)
    (t : String) (sess sess' : Session) (fi : FileInfo)
    (hb : alistGet t s.sessions = some sess)
    (hfi : sess.fileInfo = some fi)
    (ha : alistGet t (step s i).1.sessions = some sess') :
    sess'.fileInfo = some fi
    ∨ (∃ ch tc fn fsz ft now sf,
          i = .uploadChunk sess.sender t ch 0 tc fn fsz ft now sf
          ∧ sess'.fileInfo = some { fileName := fn, fileSize := fsz, fileType := ft,
                                    totalChunks := tc, uploadStartTime := now })
    ∨ (∃ c now, i = .createTransfer c t now ∧ sess'.fileInfo = none) := by
  rcases step_session_change s i t sess sess' hb ha with
    h | ⟨c, now, hi, h⟩ | ⟨c, hi, hr, h⟩ |
    ⟨ch, ci, tc, fn, fsz, ft, now, hi, h⟩ |
    ⟨ch, ci, tc, fn, fsz, ft, now, hi, h⟩ | ⟨c, now, hi, h⟩
  · subst h
    exact Or.inl hfi
  · refine Or.inr (Or.inr ⟨c, now, hi, ?_⟩)
    rw [h]
    rfl
  · left
    rw [h]
    exact hfi
  · by_cases hci : ci = 0
    · subst hci
      refine Or.inr (Or.inl ⟨ch, tc, fn, fsz, ft, now, true, hi, ?_⟩)
      rw [h, chunkZeroUpdate_fileInfo_zero]
    · left
      rw [h, chunkZeroUpdate_fileInfo_ne _ _ _ _ _ _ _ hci]
      exact hfi
  · by_cases hci : ci = 0
    · subst hci
      refine Or.inr (Or.inl ⟨ch, tc, fn, fsz, ft, now, false, hi, ?_⟩)
      rw [h]
      show (chunkZeroUpdate sess 0 tc fn fsz ft now).fileInfo = _
      rw [chunkZeroUpdate_fileInfo_zero]
    · left
      rw [h]
      show (chunkZeroUpdate sess ci tc fn fsz ft now).fileInfo = some fi
      rw [chunkZeroUpdate_fileInfo_ne _ _ _ _ _ _ _ hci]
      exact hfi
  · left
    rw [h]
    exact hfi

theorem fileInfo_overwritten_only_by_chunk_zero_witness :
    ({ freshSession "t" "A" 0 with
       fileInfo := some { fileName := "a", fileSize := 1, fileType := "x",
                          totalChunks := 1, uploadStartTime := 0 } } : Session).fileInfo
        = some { fileName := "a", fileSize := 1, fileType := "x",
                 totalChunks := 1, uploadStartTime := 0 }
    ∨ (∃ ch tc fn fsz ft now sf,
          (Input.getStatus "B" "t")
            = .uploadChunk ({ freshSession "t" "A" 0 with
                fileInfo := some { fileName := "a", fileSize := 1, fileType := "x",
                                   totalChunks := 1, uploadStartTime := 0 } } : Session).sender
                "t" ch 0 tc fn fsz ft now sf
          ∧ ({ freshSession "t" "A" 0 with
               fileInfo := some { fileName := "a", fileSize := 1, fileType := "x",
                                  totalChunks := 1, uploadStartTime := 0 } } : Session).fileInfo
              = some { fileName := fn, fileSize := fsz, fileType := ft,
                       totalChunks := tc, uploadStartTime := now })
    ∨ (∃ c now, (Input.getStatus "B" "t") = .createTransfer c "t" now
          ∧ ({ freshSession "t" "A" 0 with
               fileInfo := some { fileName := "a", fileSize := 1, fileType := "x",
                                  totalChunks := 1, uploadStartTime := 0 } } : Session).fileInfo
              = none) :=
  fileInfo_overwritten_only_by_chunk_zero
    { sessions := [("t", { freshSession "t" "A" 0 with
        fileInfo := some { fileName := "a", fileSize := 1, fileType := "x",
                           totalChunks := 1, uploadStartTime := 0 } })],
      connections := [], store := [], scheduledCleanups := [] }
    (.getStatus "B" "t") "t" _ _ _ (by decide) (by decide) (by decide)

/-- C7: a join on a session that already has a receiver always yields
`RECEIVER_EXISTS` to the caller with the whole server state untouched;
moreover a bound receiver identity is never changed for the lifetime of the
session object — the only step after which the id `t` maps to a session
with a different receiver is a re-create, which installs a brand-new
session.  Hence at most one receiver identity is ever bound per session. -/
theorem join_receiver_exists_and_binding_stable :
    (∀ (s : ServerState) (caller t : String) (sess : Session) (r : String),
        alistGet t s.sessions = some sess → sess.receiver = some r →
        handleJoin caller t s = (s, [(caller, .errorEv "RECEIVER_EXISTS" none)]))
    ∧ (∀ (s : ServerState) (i : Input) (t : String) (sess sess' : Session) (r : String),
        alistGet t s.sessions = some sess → sess.receiver = some r →
        alistGet t (step s i).1.sessions = some sess' →
        sess'.receiver = some r
        ∨ ∃ c now, i = .createTransfer c t now ∧ sess' = freshSession t c now) := by
  constructor
  · intro s caller t sess r hget hr
    simp [handleJoin, hget, hr]
  · intro s i t sess sess' r hb hr ha
    rcases step_session_change s i t sess sess' hb ha with
      h | ⟨c, now, hi, h⟩ | ⟨c, hi, hr0, h⟩ |
      ⟨ch, ci, tc, fn, fsz, ft, now, hi, h⟩ |
      ⟨ch, ci, tc, fn, fsz, ft, now, hi, h⟩ | ⟨c, now, hi, h⟩
    · subst h
      exact Or.inl hr
    · exact Or.inr ⟨c, now, hi, h⟩
    · rw [hr0] at hr
      cases hr
    · left
      rw [h, chunkZeroUpdate_receiver]
      exact hr
    · left
      rw [h]
      show (chunkZeroUpdate sess ci tc fn fsz ft now).receiver = some r
      rw [chunkZeroUpdate_receiver]
      exact hr
    · left
      rw [h]
      exact hr

theorem join_receiver_exists_and_binding_stable_witness :
    handleJoin "C" "t"
        { sessions := [("t", { freshSession "t" "A" 0 with receiver := some "B" })],
          connections := [], store := [], scheduledCleanups := [] }
      = ({ sessions := [("t", { freshSession "t" "A" 0 with receiver := some "B" })],
           connections := [], store := [], scheduledCleanups := [] },
         [("C", .errorEv "RECEIVER_EXISTS" none)])
    ∧ (({ freshSession "t" "A" 0 with receiver := some "B" } : Session).receiver = some "B"
        ∨ ∃ c now, (Input.getStatus "C" "t") = .createTransfer c "t" now
            ∧ ({ freshSession "t" "A" 0 with receiver := some "B" } : Session)
                = freshSession "t" c now) :=
  ⟨join_receiver_exists_and_binding_stable.1
      { sessions := [("t", { freshSession "t" "A" 0 with receiver := some "B" })],
        connections := [], store := [], scheduledCleanups := [] }
      "C" "t" { freshSession "t" "A" 0 with receiver := some "B" } "B"
      (by decide) (by decide),
   join_receiver_exists_and_binding_stable.2
      { sessions := [("t", { freshSession "t" "A" 0 with receiver := some "B" })],
        connections := [], store := [], scheduledCleanups := [] }
      (.getStatus "C" "t") "t"
      { freshSession "t" "A" 0 with receiver := some "B" }
      { freshSession "t" "A" 0 with receiver := some "B" } "B"
      (by decide) (by decide) (by decide)⟩

/-- C2 is false on the code for chunk index 0: the `chunkIndex === 0`
branch mutates `fileInfo` and `status` *before* the write is attempted, so
a failed write of chunk 0 still leaves the session changed.  Concretely: on
a fresh session, a failed upload of chunk 0 sets `fileInfo` and moves the
status to `uploading`. -/
theorem claimSaveErrorSessionUnchanged_cex : ¬ claimSaveErrorSessionUnchanged := by
  intro h
  have h2 := (h { sessions := [("t", freshSession "t" "A" 0)], connections := [],
                  store := [], scheduledCleanups := [] }
      "A" "t" [1] 0 1 "a" 1 "x" 5 (freshSession "t" "A" 0) (by decide) (by decide)).2
  exact absurd h2 (by decide)

/-- C2 amended: when persistence fails for an upload by the bound sender on
an existing session, `CHUNK_SAVE_ERROR` (tagged with the chunk index) is
emitted to the sender only; no chunk metadata is recorded, and the blob
store, connection registry and scheduled cleanups are untouched; for
`chunkIndex ≠ 0` the whole server state is unchanged, but for
`chunkIndex = 0` the session's `fileInfo` is (re)set from the event's
fields and its status is set to `uploading` even though the write failed. -/
theorem uploadChunk_save_error_amended (s : ServerState) (caller t : String)
    (ch : List Nat) (ci tc : Nat) (fn : String) (fsz : Nat) (ft : String)
    (now : Nat) (sess : Session)
    (hget : alistGet t s.sessions = some sess)
    (hs : sess.sender = caller) :
    (handleUploadChunk caller t ch ci tc fn fsz ft now true s).2
        = [(caller, .errorEv "CHUNK_SAVE_ERROR" (some ci))]
    ∧ (handleUploadChunk caller t ch ci tc fn fsz ft now true s).1.store = s.store
    ∧ (handleUploadChunk caller t ch ci tc fn fsz ft now true s).1.connections
        = s.connections
    ∧ (handleUploadChunk caller t ch ci tc fn fsz ft now true s).1.scheduledCleanups
        = s.scheduledCleanups
    ∧ alistGet t (handleUploadChunk caller t ch ci tc fn fsz ft now true s).1.sessions
        = some (chunkZeroUpdate sess ci tc fn fsz ft now)
    ∧ (chunkZeroUpdate sess ci tc fn fsz ft now).chunks = sess.chunks
    ∧ (ci ≠ 0 → (handleUploadChunk caller t ch ci tc fn fsz ft now true s).1 = s) := by
  refine ⟨?_, ?_, ?_, ?_, ?_, chunkZeroUpdate_chunks _ _ _ _ _ _ _, ?_⟩
  · simp [handleUploadChunk, hget, hs]
  · simp [handleUploadChunk, hget, hs]
  · simp [handleUploadChunk, hget, hs]
  · simp [handleUploadChunk, hget, hs]
  · simp [handleUploadChunk, hget, hs, alistGet_set_self]
  · intro hci
    have h1 : chunkZeroUpdate sess ci tc fn fsz ft now = sess := by
      simp [chunkZeroUpdate, hci]
    simp [handleUploadChunk, hget, hs, h1, alistSet_eq_self_of_get hget]

theorem uploadChunk_save_error_amended_witness :
    (handleUploadChunk "A" "t" [1] 1 2 "a" 3 "x" 5 true
        { sessions := [("t", freshSession "t" "A" 0)], connections := [],
          store := [], scheduledCleanups := [] }).1
      = { sessions := [("t", freshSession "t" "A" 0)], connections := [],
          store := [], scheduledCleanups := [] } :=
  (uploadChunk_save_error_amended
    { sessions := [("t", freshSession "t" "A" 0)], connections := [],
      store := [], scheduledCleanups := [] }
    "A" "t" [1] 1 2 "a" 3 "x" 5 (freshSession "t" "A" 0)
    (by decide) (by decide)).2.2.2.2.2.2 (by decide)

/-- C5 is false on the code: the handler pushes a metadata entry on every
successful upload, so retransmitting an index duplicates it.  Concretely:
uploading chunk 0 twice leaves two entries of index 0 in `chunks`. -/
theorem claimChunksAtMostOnePerIndex_cex : ¬ claimChunksAtMostOnePerIndex := by
  intro h
  have h2 := h
    [.connect "A" 0, .createTransfer "A" "t" 1,
     .uploadChunk "A" "t" [1] 0 2 "a" 2 "x" 2 false,
     .uploadChunk "A" "t" [1] 0 2 "a" 2 "x" 3 false] "t"
    { transferId := "t", sender := "A", receiver := none,
      chunks := [{ index := 0, path := "temp/t_chunk_0", size := 1, timestamp := 2 },
                 { index := 0, path := "temp/t_chunk_0", size := 1, timestamp := 3 }],
      fileInfo := some { fileName := "a", fileSize := 2, fileType := "x",
                         totalChunks := 2, uploadStartTime := 3 },
      startTime := 1, status := .uploading, completedAt := none }
    (by decide)
  exact absurd h2 (by decide)

/-- C5 amended: `chunks` is an append-only arrival-order list — each
successful upload appends exactly one entry, so a retransmitted index
appears once per successful upload and duplicates are possible — while in
the blob store the key for a given `(transferId, chunkIndex)` is
overwritten, so the last write for an index wins in storage. -/
theorem chunks_append_last_write_wins (s : ServerState) (caller t : String)
    (ch : List Nat) (ci tc : Nat) (fn : String) (fsz : Nat) (ft : String)
    (now : Nat) (sess : Session)
    (hget : alistGet t s.sessions = some sess)
    (hs : sess.sender = caller) :
    alistGet t (handleUploadChunk caller t ch ci tc fn fsz ft now false s).1.sessions
      = some { chunkZeroUpdate sess ci tc fn fsz ft now with
               chunks := sess.chunks ++ [chunkMetaOf t ch ci now] }
    ∧ alistGet (chunkKey t ci)
        (handleUploadChunk caller t ch ci tc fn fsz ft now false s).1.store
      = some ch := by
  constructor
  · simp [handleUploadChunk, hget, hs, alistGet_set_self, chunkZeroUpdate_chunks]
  · simp [handleUploadChunk, hget, hs, alistGet_set_self]

theorem chunks_append_last_write_wins_witness :
    alistGet "t" (handleUploadChunk "A" "t" [1] 0 2 "a" 2 "x" 3 false
        { sessions := [("t",
            { transferId := "t", sender := "A", receiver := none,
              chunks := [{ index := 0, path := "temp/t_chunk_0", size := 1, timestamp := 2 }],
              fileInfo := some { fileName := "a", fileSize := 2, fileType := "x",
                                 totalChunks := 2, uploadStartTime := 2 },
              startTime := 1, status := .uploading, completedAt := none })],
          connections := [], store := [("temp/t_chunk_0", [9])],
          scheduledCleanups := [] }).1.sessions
      = some { chunkZeroUpdate
                 { transferId := "t", sender := "A", receiver := none,
                   chunks := [{ index := 0, path := "temp/t_chunk_0", size := 1, timestamp := 2 }],
                   fileInfo := some { fileName := "a", fileSize := 2, fileType := "x",
                                      totalChunks := 2, uploadStartTime := 2 },
                   startTime := 1, status := .uploading, completedAt := none }
                 0 2 "a" 2 "x" 3 with
               chunks := [{ index := 0, path := "temp/t_chunk_0", size := 1, timestamp := 2 }]
                 ++ [chunkMetaOf "t" [1] 0 3] }
    ∧ alistGet (chunkKey "t" 0) (handleUploadChunk "A" "t" [1] 0 2 "a" 2 "x" 3 false
        { sessions := [("t",
            { transferId := "t", sender := "A", receiver := none,
              chunks := [{ index := 0, path := "temp/t_chunk_0", size := 1, timestamp := 2 }],
              fileInfo := some { fileName := "a", fileSize := 2, fileType := "x",
                                 totalChunks := 2, uploadStartTime := 2 },
              startTime := 1, status := .uploading, completedAt := none })],
          connections := [], store := [("temp/t_chunk_0", [9])],
          scheduledCleanups := [] }).1.store
      = some [1] :=
  chunks_append_last_write_wins _ "A" "t" [1] 0 2 "a" 2 "x" 3 _ (by decide) (by decide)

theorem cleanupTransfer_absent (s : ServerState) (t : String)
    (failSet : List String) (h : alistGet t s.sessions = none) :
    cleanupTransfer t failSet s = (s, []) := by
  simp [cleanupTransfer, h]

theorem cleanupTransfer_removes (s : ServerState) (t : String)
    (failSet : List String) (sess : Session)
    (h : alistGet t s.sessions = some sess) :
    alistGet t (cleanupTransfer t failSet s).1.sessions = none := by
  simp [cleanupTransfer, h, alistGet_remove_self]

theorem alistGet_deleteChunkBlobs_none (failSet : List String)
    (chunks : List ChunkMeta) (store : List (String × List Nat)) (p : String)
    (h : alistGet p store = none) :
    alistGet p (deleteChunkBlobs failSet chunks store) = none := by
  induction chunks generalizing store with
  | nil => simpa [deleteChunkBlobs] using h
  | cons c rest ih =>
      simp only [deleteChunkBlobs]
      apply ih
      by_cases hc : c.path ∈ failSet
      · simpa [hc] using h
      · simp only [hc, if_false]
        by_cases hp : c.path = p
        · subst hp
          exact alistGet_remove_self _ _
        · rw [alistGet_remove_ne _ _ _ hp]
          exact h

theorem deleteChunkBlobs_deletes (failSet : List String)
    (chunks : List ChunkMeta) (store : List (String × List Nat)) (p : String)
    (hp : p ∈ chunks.map ChunkMeta.path) (hf : p ∉ failSet) :
    alistGet p (deleteChunkBlobs failSet chunks store) = none := by
  induction chunks generalizing store with
  | nil => simp at hp
  | cons c rest ih =>
      simp only [List.map_cons, List.mem_cons] at hp
      rcases hp with hp | hp
      · subst hp
        simp only [deleteChunkBlobs]
        apply alistGet_deleteChunkBlobs_none
        rw [if_neg hf]
        exact alistGet_remove_self _ _
      · simp only [deleteChunkBlobs]
        exact ih _ hp

/-- C9: cleanup on a registered transfer id attempts deletion of every blob
referenced by the session's chunk metadata — each referenced path whose
unlink does not fail is gone afterwards, regardless of failures on the
other paths — and removes the session from the registry; cleanup on an
absent id is a complete no-op, so a second cleanup for the same id (the
session now being absent) is also a no-op. -/
theorem cleanupTransfer_spec :
    (∀ (s : ServerState) (t : String) (failSet : List String) (sess : Session),
        alistGet t s.sessions = some sess →
        alistGet t (cleanupTransfer t failSet s).1.sessions = none
        ∧ (∀ p, p ∈ sess.chunks.map ChunkMeta.path → p ∉ failSet →
              alistGet p (cleanupTransfer t failSet s).1.store = none))
    ∧ (∀ (s : ServerState) (t : String) (failSet : List String),
        alistGet t s.sessions = none → cleanupTransfer t failSet s = (s, []))
    ∧ (∀ (s : ServerState) (t : String) (failSet : List String),
        cleanupTransfer t failSet (cleanupTransfer t failSet s).1
          = ((cleanupTransfer t failSet s).1, [])) := by
  refine ⟨?_, cleanupTransfer_absent, ?_⟩
  · intro s t failSet sess hget
    refine ⟨cleanupTransfer_removes s t failSet sess hget, ?_⟩
    intro p hp hf
    simp only [cleanupTransfer, hget]
    exact deleteChunkBlobs_deletes failSet sess.chunks s.store p hp hf
  · intro s t failSet
    rcases hg : alistGet t s.sessions with _ | sess
    · rw [cleanupTransfer_absent s t failSet hg]
      exact cleanupTransfer_absent s t failSet hg
    · exact cleanupTransfer_absent _ t failSet (cleanupTransfer_removes s t failSet sess hg)

theorem cleanupTransfer_spec_witness :
    alistGet "temp/t_chunk_0" (cleanupTransfer "t" ["temp/t_chunk_1"]
        { sessions := [("t",
            { transferId := "t", sender := "A", receiver := none,
              chunks := [{ index := 0, path := "temp/t_chunk_0", size := 1, timestamp := 0 },
                         { index := 1, path := "temp/t_chunk_1", size := 1, timestamp := 1 }],
              fileInfo := none, startTime := 0, status := .uploading, completedAt := none })],
          connections := [],
          store := [("temp/t_chunk_0", [1]), ("temp/t_chunk_1", [2])],
          scheduledCleanups := [] }).1.store = none
    ∧ cleanupTransfer "absent" []
        { sessions := [], connections := [], store := [], scheduledCleanups := [] }
      = ({ sessions := [], connections := [], store := [], scheduledCleanups := [] }, []) :=
  ⟨((cleanupTransfer_spec.1
      { sessions := [("t",
          { transferId := "t", sender := "A", receiver := none,
            chunks := [{ index := 0, path := "temp/t_chunk_0", size := 1, timestamp := 0 },
                       { index := 1, path := "temp/t_chunk_1", size := 1, timestamp := 1 }],
            fileInfo := none, startTime := 0, status := .uploading, completedAt := none })],
        connections := [],
        store := [("temp/t_chunk_0", [1]), ("temp/t_chunk_1", [2])],
        scheduledCleanups := [] }
      "t" ["temp/t_chunk_1"]
      { transferId := "t", sender := "A", receiver := none,
        chunks := [{ index := 0, path := "temp/t_chunk_0", size := 1, timestamp := 0 },
                   { index := 1, path := "temp/t_chunk_1", size := 1, timestamp := 1 }],
        fileInfo := none, startTime := 0, status := .uploading, completedAt := none }
      (by decide)).2) "temp/t_chunk_0" (by decide) (by decide),
   cleanupTransfer_spec.2.1
      { sessions := [], connections := [], store := [], scheduledCleanups := [] }
      "absent" [] (by decide)⟩

/-- C1: for an upload by the bound sender on an existing session whose
write succeeds: (1) with a receiver bound, the handling step emits exactly
one `receive-chunk` to the receiver, carrying the raw chunk and
`{chunkIndex, totalChunks, fileName, fileSize, fileType}`, and it precedes
the sender's `chunk-uploaded` acknowledgment; (2) with no receiver bound,
the chunk is persisted and its metadata appended but the step emits only
the acknowledgment — no relay; and (3) any `receive-chunk` emitted by any
dispatched event whatsoever is produced inside the handling of a successful
upload and carries exactly that upload's own payload, so a chunk stored
while no receiver was bound is never relayed by any later step. -/
theorem uploadChunk_relay_spec :
    (∀ (s : ServerState) (caller t : String) (ch : List Nat) (ci tc : Nat)
        (fn : String) (fsz : Nat) (ft : String) (now : Nat) (sess : Session)
        (r : String),
        alistGet t s.sessions = some sess → sess.sender = caller →
        sess.receiver = some r →
        (handleUploadChunk caller t ch ci tc fn fsz ft now false s).2
          = [(r, .receiveChunk ch ci tc fn fsz ft), (caller, .chunkUploaded ci)])
    ∧ (∀ (s : ServerState) (caller t : String) (ch : List Nat) (ci tc : Nat)
        (fn : String) (fsz : Nat) (ft : String) (now : Nat) (sess : Session),
        alistGet t s.sessions = some sess → sess.sender = caller →
        sess.receiver = none →
        (handleUploadChunk caller t ch ci tc fn fsz ft now false s).2
          = [(caller, .chunkUploaded ci)]
        ∧ alistGet (chunkKey t ci)
            (handleUploadChunk caller t ch ci tc fn fsz ft now false s).1.store
          = some ch
        ∧ alistGet t (handleUploadChunk caller t ch ci tc fn fsz ft now false s).1.sessions
          = some { chunkZeroUpdate sess ci tc fn fsz ft now with
                   chunks := sess.chunks ++ [chunkMetaOf t ch ci now] })
    ∧ (∀ (s : ServerState) (i : Input) (e : Emission),
        e ∈ (step s i).2 → isRelay e.2 = true → relayCarriesOwnPayload i e) := by
  refine ⟨?_, ?_, ?_⟩
  · intro s caller t ch ci tc fn fsz ft now sess r hget hs hr
    simp [handleUploadChunk, hget, hs, chunkZeroUpdate_receiver, hr]
  · intro s caller t ch ci tc fn fsz ft now sess hget hs hr
    refine ⟨?_, ?_, ?_⟩
    · simp [handleUploadChunk, hget, hs, chunkZeroUpdate_receiver, hr]
    · simp [handleUploadChunk, hget, hs, alistGet_set_self]
    · simp [handleUploadChunk, hget, hs, alistGet_set_self, chunkZeroUpdate_chunks]
  · intro s i e hmem hrel
    cases i with
    | connect c now =>
        simp [step, handleConnect] at hmem
    | createTransfer c t' now =>
        simp only [step, handleCreate, List.mem_singleton] at hmem
        subst hmem
        simp [isRelay] at hrel
    | joinTransfer c t' =>
        simp only [step, handleJoin] at hmem
        rcases hg : alistGet t' s.sessions with _ | sess0 <;> rw [hg] at hmem <;>
          simp only at hmem
        · simp only [List.mem_singleton] at hmem
          subst hmem
          simp [isRelay] at hrel
        · rcases hr : sess0.receiver with _ | r <;> rw [hr] at hmem <;>
            simp only at hmem
          · simp only [List.mem_cons, List.mem_singleton, List.not_mem_nil,
              or_false] at hmem
            rcases hmem with hmem | hmem <;>
              · subst hmem
                simp [isRelay] at hrel
          · simp only [List.mem_singleton] at hmem
            subst hmem
            simp [isRelay] at hrel
    | uploadChunk c t' ch ci tc fn fsz ft now sf =>
        simp only [step, handleUploadChunk] at hmem
        rcases hg : alistGet t' s.sessions with _ | sess0 <;> rw [hg] at hmem <;>
          simp only at hmem
        · simp only [List.mem_singleton] at hmem
          subst hmem
          simp [isRelay] at hrel
        · by_cases hsend : sess0.sender = c
          · rw [if_pos hsend] at hmem
            cases sf with
            | true =>
                rw [if_pos rfl] at hmem
                simp only [List.mem_singleton] at hmem
                subst hmem
                simp [isRelay] at hrel
            | false =>
                rw [if_neg (by decide)] at hmem
                simp only at hmem
                rcases List.mem_append.mp hmem with h | h
                · rcases hr : (chunkZeroUpdate sess0 ci tc fn fsz ft now).receiver
                    with _ | r <;> rw [hr] at h
                  · simp at h
                  · simp only [List.mem_singleton] at h
                    subst h
                    simp [relayCarriesOwnPayload]
                · simp only [List.mem_singleton] at h
                  subst h
                  simp [isRelay] at hrel
          · rw [if_neg hsend] at hmem
            simp only [List.mem_singleton] at hmem
            subst hmem
            simp [isRelay] at hrel
    | uploadComplete c t' now =>
        simp only [step, handleUploadComplete] at hmem
        rcases hg : alistGet t' s.sessions with _ | sess0 <;> rw [hg] at hmem <;>
          simp only at hmem
        · simp only [List.mem_singleton] at hmem
          subst hmem
          simp [isRelay] at hrel
        · rcases hr : sess0.receiver with _ | r <;> rw [hr] at hmem
          · simp at hmem
          · simp only [List.mem_singleton] at hmem
            subst hmem
            simp [isRelay] at hrel
    | getStatus c t' =>
        simp only [step, handleGetStatus] at hmem
        rcases hg : alistGet t' s.sessions with _ | sess0 <;> rw [hg] at hmem <;>
          simp only [List.mem_singleton] at hmem <;>
          · subst hmem
            simp [isRelay] at hrel
    | disconnect c =>
        simp only [step, handleDisconnect] at hmem
        rcases hc : alistGet c s.connections with _ | conn <;> rw [hc] at hmem <;>
          simp only at hmem
        · simp at hmem
        · rcases htr : conn.transferId with _ | t0 <;> rw [htr] at hmem <;>
            simp only at hmem
          · simp at hmem
          · rcases hg : alistGet t0 s.sessions with _ | sess0 <;> rw [hg] at hmem <;>
              simp only at hmem
            · simp at hmem
            · rcases ho : (if sess0.sender = c then sess0.receiver else some sess0.sender)
                with _ | other <;> rw [ho] at hmem
              · simp at hmem
              · simp only [List.mem_singleton] at hmem
                subst hmem
                simp [isRelay] at hrel
    | cleanup t' failSet =>
        simp only [step, cleanupTransfer] at hmem
        rcases hg : alistGet t' s.sessions with _ | sess0 <;> rw [hg] at hmem <;>
          simp at hmem

theorem uploadChunk_relay_spec_witness :
    (handleUploadChunk "A" "t" [7] 1 2 "a" 9 "x" 4 false
        { sessions := [("t", { freshSession "t" "A" 0 with receiver := some "B" })],
          connections := [], store := [], scheduledCleanups := [] }).2
      = [("B", .receiveChunk [7] 1 2 "a" 9 "x"), ("A", .chunkUploaded 1)]
    ∧ ((handleUploadChunk "A" "t" [7] 1 2 "a" 9 "x" 4 false
        { sessions := [("t", freshSession "t" "A" 0)],
          connections := [], store := [], scheduledCleanups := [] }).2
      = [("A", .chunkUploaded 1)]
    ∧ alistGet (chunkKey "t" 1) (handleUploadChunk "A" "t" [7] 1 2 "a" 9 "x" 4 false
        { sessions := [("t", freshSession "t" "A" 0)],
          connections := [], store := [], scheduledCleanups := [] }).1.store
      = some [7]
    ∧ alistGet "t" (handleUploadChunk "A" "t" [7] 1 2 "a" 9 "x" 4 false
        { sessions := [("t", freshSession "t" "A" 0)],
          connections := [], store := [], scheduledCleanups := [] }).1.sessions
      = some { chunkZeroUpdate (freshSession "t" "A" 0) 1 2 "a" 9 "x" 4 with
               chunks := (freshSession "t" "A" 0).chunks ++ [chunkMetaOf "t" [7] 1 4] })
    ∧ relayCarriesOwnPayload (.uploadChunk "A" "t" [7] 1 2 "a" 9 "x" 4 false)
        ("B", .receiveChunk [7] 1 2 "a" 9 "x") :=
  ⟨uploadChunk_relay_spec.1
      { sessions := [("t", { freshSession "t" "A" 0 with receiver := some "B" })],
        connections := [], store := [], scheduledCleanups := [] }
      "A" "t" [7] 1 2 "a" 9 "x" 4 { freshSession "t" "A" 0 with receiver := some "B" } "B"
      (by decide) (by decide) (by decide),
   uploadChunk_relay_spec.2.1
      { sessions := [("t", freshSession "t" "A" 0)],
        connections := [], store := [], scheduledCleanups := [] }
      "A" "t" [7] 1 2 "a" 9 "x" 4 (freshSession "t" "A" 0)
      (by decide) (by decide) (by decide),
   uploadChunk_relay_spec.2.2
      { sessions := [("t", { freshSession "t" "A" 0 with receiver := some "B" })],
        connections := [], store := [], scheduledCleanups := [] }
      (.uploadChunk "A" "t" [7] 1 2 "a" 9 "x" 4 false)
      ("B", .receiveChunk [7] 1 2 "a" 9 "x")
      (by decide) (by decide)⟩

/-! ## C6: the chunk storage key -/

theorem decDigitChar_mem_digitChars (n : Nat) (h : n < 10) :
    decDigitChar n ∈ digitChars := by
  interval_cases n <;> decide

theorem mem_decDigitsCore_digit : ∀ (fuel n : Nat) (c : Char),
    c ∈ decDigitsCore fuel n → c ∈ digitChars := by
  intro fuel
  induction fuel with
  | zero =>
      intro n c hc
      simp [decDigitsCore] at hc
  | succ fuel ih =>
      intro n c hc
      simp only [decDigitsCore] at hc
      by_cases h : n < 10
      · rw [if_pos h] at hc
        simp only [List.mem_singleton] at hc
        subst hc
        exact decDigitChar_mem_digitChars n h
      · rw [if_neg h] at hc
        rcases List.mem_append.mp hc with h2 | h2
        · exact ih _ c h2
        · simp only [List.mem_singleton] at h2
          subst h2
          exact decDigitChar_mem_digitChars _ (Nat.mod_lt n (by omega))

theorem decDigitsCore_ne_nil (fuel n : Nat) : decDigitsCore (fuel + 1) n ≠ [] := by
  simp only [decDigitsCore]
  by_cases h : n < 10
  · rw [if_pos h]
    simp
  · rw [if_neg h]
    simp

theorem digitVal_decDigitChar (n : Nat) (h : n < 10) :
    digitVal (decDigitChar n) = n := by
  interval_cases n <;> decide

theorem valDigits_append_digit (l : List Char) (c : Char) :
    valDigits (l ++ [c]) = 10 * valDigits l + digitVal c := by
  unfold valDigits
  rw [List.foldl_append]
  rfl

theorem valDigits_decDigitsCore : ∀ (fuel n : Nat), n < fuel →
    valDigits (decDigitsCore fuel n) = n := by
  intro fuel
  induction fuel with
  | zero =>
      intro n h
      omega
  | succ fuel ih =>
      intro n h
      simp only [decDigitsCore]
      by_cases h10 : n < 10
      · rw [if_pos h10]
        have hv : valDigits [decDigitChar n] = digitVal (decDigitChar n) := by
          simp [valDigits]
        rw [hv, digitVal_decDigitChar n h10]
      · rw [if_neg h10]
        rw [valDigits_append_digit]
        have hdiv : n / 10 < fuel := by
          have h1 : n / 10 < n := Nat.div_lt_self (by omega) (by omega)
          omega
        rw [ih _ hdiv, digitVal_decDigitChar _ (Nat.mod_lt n (by omega))]
        omega

theorem jsNatToString_inj (n m : Nat)
    (h : decDigitsCore (n + 1) n = decDigitsCore (m + 1) m) : n = m := by
  have hn := valDigits_decDigitsCore (n + 1) n (by omega)
  have hm := valDigits_decDigitsCore (m + 1) m (by omega)
  rw [← hn, ← hm, h]

theorem splitSlash_ne_nil (l : List Char) : splitSlash l ≠ [] := by
  cases l with
  | nil => simp [splitSlash]
  | cons c rest =>
      simp only [splitSlash]
      by_cases h : c = '/'
      · rw [if_pos h]
        simp
      · rw [if_neg h]
        rcases hs : splitSlash rest with _ | ⟨s, ss⟩ <;> simp

theorem splitSlash_append_slash (xs ys : List Char) :
    splitSlash (xs ++ '/' :: ys) = splitSlash xs ++ splitSlash ys := by
  induction xs with
  | nil => simp [splitSlash]
  | cons c rest ih =>
      show splitSlash (c :: (rest ++ '/' :: ys)) = splitSlash (c :: rest) ++ splitSlash ys
      simp only [splitSlash]
      by_cases h : c = '/'
      · rw [if_pos h, if_pos h, ih]
        rfl
      · rw [if_neg h, if_neg h, ih]
        rcases hs : splitSlash rest with _ | ⟨s, ss⟩
        · exact absurd hs (splitSlash_ne_nil rest)
        · rfl

theorem splitSlash_no_slash (l : List Char) (h : '/' ∉ l) : splitSlash l = [l] := by
  induction l with
  | nil => rfl
  | cons c rest ih =>
      simp only [List.mem_cons, not_or] at h
      obtain ⟨h1, h2⟩ := h
      simp only [splitSlash]
      rw [if_neg (fun hc => h1 hc.symm), ih h2]

/-- Joining `config.TEMP_DIR = "./temp"` with a slash-free nonempty name:
the leading `.` segment is dropped by normalization and the name is kept as
the second segment. -/
theorem nodeJoin_temp (b : String) (hnos : '/' ∉ b.data)
    (hlen : 3 ≤ b.data.length) :
    (nodeJoin TEMP_DIR b).data = "temp/".data ++ b.data := by
  have hb1 : b.data ≠ [] := by
    intro hh
    rw [hh] at hlen
    simp at hlen
  have hb2 : b.data ≠ ['.'] := by
    intro hh
    rw [hh] at hlen
    simp at hlen
  have hb3 : b.data ≠ ['.', '.'] := by
    intro hh
    rw [hh] at hlen
    simp at hlen
  have hsplit : splitSlash (TEMP_DIR.data ++ '/' :: b.data)
      = [['.'], ['t', 'e', 'm', 'p'], b.data] := by
    have h1 : TEMP_DIR.data ++ '/' :: b.data
        = (['.'] : List Char) ++ '/' ::
            ((['t', 'e', 'm', 'p'] : List Char) ++ '/' :: b.data) := rfl
    rw [h1, splitSlash_append_slash, splitSlash_append_slash,
        splitSlash_no_slash b.data hnos]
    rfl
  have hsegs : normSegs [] (splitSlash (TEMP_DIR.data ++ '/' :: b.data))
      = [['t', 'e', 'm', 'p'], b.data] := by
    rw [hsplit]
    simp [normSegs, hb1, hb2, hb3]
  simp only [nodeJoin]
  rw [hsegs]
  rfl

theorem chunkKey_data (t : String) (i : Nat) (h : '/' ∉ t.data) :
    (chunkKey t i).data
      = "temp/".data ++ (t.data ++ "_chunk_".data ++ decDigitsCore (i + 1) i) := by
  have hb : (t ++ "_chunk_" ++ jsNatToString i).data
      = t.data ++ "_chunk_".data ++ decDigitsCore (i + 1) i := by
    rw [String.data_append, String.data_append]
    rfl
  have hnos : '/' ∉ (t ++ "_chunk_" ++ jsNatToString i).data := by
    rw [hb]
    intro hmem
    rcases List.mem_append.mp hmem with hmem2 | hmem2
    · rcases List.mem_append.mp hmem2 with hmem3 | hmem3
      · exact h hmem3
      · exact absurd hmem3 (by decide)
    · exact absurd (mem_decDigitsCore_digit (i + 1) i '/' hmem2) (by decide)
  have hlen : 3 ≤ (t ++ "_chunk_" ++ jsNatToString i).data.length := by
    rw [hb]
    have h7 : ("_chunk_" : String).data.length = 7 := by decide
    rw [List.length_append, List.length_append, h7]
    omega
  rw [chunkKey, nodeJoin_temp _ hnos hlen, hb]

/-- In `u1 ++ m ++ d1 = u2 ++ m ++ d2` with `d1`, `d2` digit strings and
`m` ending in a non-digit, the digit tails have equal length. -/
theorem append_sep_digits_len_le (u1 u2 m d1 d2 : List Char)
    (hm : m ≠ []) (hml : ∀ c, m.getLast? = some c → c ∉ digitChars)
    (hd2 : ∀ c ∈ d2, c ∈ digitChars)
    (heq : u1 ++ m ++ d1 = u2 ++ m ++ d2) :
    d2.length ≤ d1.length := by
  by_contra hlt
  push_neg at hlt
  have hk0 : 0 < d2.length - d1.length := by omega
  have hkle : d2.length - d1.length ≤ d2.length := by omega
  have heq2 : (u1 ++ m) ++ d1
      = ((u2 ++ m) ++ d2.take (d2.length - d1.length))
          ++ d2.drop (d2.length - d1.length) := by
    rw [List.append_assoc (u2 ++ m), List.take_append_drop]
    exact heq
  have hlend : (d2.drop (d2.length - d1.length)).length = d1.length := by
    rw [List.length_drop]
    omega
  obtain ⟨h1, h2⟩ := List.append_inj' heq2 hlend.symm
  have htk : d2.take (d2.length - d1.length) ≠ [] := by
    apply List.length_pos.mp
    rw [List.length_take]
    omega
  have hlast1 : (u1 ++ m).getLast? = some (m.getLast hm) := by
    rw [List.getLast?_append_of_ne_nil u1 hm]
    exact List.getLast?_eq_getLast_of_ne_nil hm
  have hlast2 : ((u2 ++ m) ++ d2.take (d2.length - d1.length)).getLast?
      = some ((d2.take (d2.length - d1.length)).getLast htk) := by
    rw [List.getLast?_append_of_ne_nil _ htk]
    exact List.getLast?_eq_getLast_of_ne_nil htk
  rw [h1, hlast2] at hlast1
  have hmem : (d2.take (d2.length - d1.length)).getLast htk ∈ d2 :=
    List.mem_of_mem_take (List.getLast_mem htk)
  have hdig := hd2 _ hmem
  rw [Option.some.inj hlast1] at hdig
  exact hml _ (List.getLast?_eq_getLast_of_ne_nil hm) hdig

theorem append_sep_digits_cancel (u1 u2 m d1 d2 : List Char)
    (hm : m ≠ []) (hml : ∀ c, m.getLast? = some c → c ∉ digitChars)
    (hd1 : ∀ c ∈ d1, c ∈ digitChars) (hd2 : ∀ c ∈ d2, c ∈ digitChars)
    (heq : u1 ++ m ++ d1 = u2 ++ m ++ d2) :
    u1 = u2 ∧ d1 = d2 := by
  have hle1 := append_sep_digits_len_le u1 u2 m d1 d2 hm hml hd2 heq
  have hle2 := append_sep_digits_len_le u2 u1 m d2 d1 hm hml hd1 heq.symm
  have hlen : d1.length = d2.length := by omega
  obtain ⟨h1, h2⟩ := List.append_inj' heq hlen
  exact ⟨List.append_cancel_right h1, h2⟩

/-- C6 is false on the code: the raw transfer id is spliced into a
filesystem path that `path.join` normalizes, so the distinct ids `"a//b"`
and `"a/b"` yield the same storage key for the same index. -/
theorem claimChunkKeyInjective_cex : ¬ claimChunkKeyInjective := by
  intro h
  exact absurd (h "a//b" "a/b" 0 0 (by decide)).1 (by decide)

/-- C6 amended: the key construction is injective over pairs whose transfer
id contains no `'/'` (then the key is literally
`temp/<transferId>_chunk_<chunkIndex>` and the decimal index after the last
`_chunk_` separator determines the split); with fully arbitrary ids, path
normalization merges distinct pairs, as the counterexample shows. -/
theorem chunkKey_inj_slash_free (t1 t2 : String) (i1 i2 : Nat)
    (h1 : '/' ∉ t1.data) (h2 : '/' ∉ t2.data)
    (heq : chunkKey t1 i1 = chunkKey t2 i2) :
    t1 = t2 ∧ i1 = i2 := by
  have hd := congrArg String.data heq
  rw [chunkKey_data t1 i1 h1, chunkKey_data t2 i2 h2] at hd
  have hd2 := List.append_cancel_left hd
  have hm : ("_chunk_" : String).data ≠ [] := by decide
  have hml : ∀ c, ("_chunk_" : String).data.getLast? = some c → c ∉ digitChars := by
    intro c hc
    have hlast : ("_chunk_" : String).data.getLast? = some '_' := by decide
    rw [hlast] at hc
    rw [← Option.some.inj hc]
    decide
  obtain ⟨ht, hdd⟩ := append_sep_digits_cancel _ _ _ _ _ hm hml
    (fun c hc => mem_decDigitsCore_digit _ _ c hc)
    (fun c hc => mem_decDigitsCore_digit _ _ c hc) hd2
  constructor
  · cases t1
    cases t2
    simp_all
  · exact jsNatToString_inj i1 i2 hdd

theorem chunkKey_inj_slash_free_witness : ("ab" : String) = "ab" ∧ 5 = 5 :=
  chunkKey_inj_slash_free "ab" "ab" 5 5 (by decide) (by decide) rfl
